import Mathlib

/-!
Verification of `GrayCodeCalibration.cpp` (structured-light projector
calibration).  The C++ source is shallowly embedded below: frames become
total functions from row/column to intensity, the per-pixel mutable buffers
(`coordinates`, `temp`, `error`) become an explicit per-pixel state that is
folded over the bit-plane pairs, and the machine integers become `Nat`/`Int`
with explicit `% 65536` (uint16), `% 256` (uint8) and two's-complement
conversions where the C++ performs them.
-/

set_option maxRecDepth 100000

namespace GrayCodeCalibration

/-- A single-channel frame: intensity sample at (row, column).  A `cv::Mat`
carries its dimensions with it; the embedding passes the dimensions
separately alongside the pixel function. -/
def Frame : Type := Nat → Nat → Nat

/-- A three-channel frame in BGR channel order, as delivered to `getMask`
and `process` before grayscale conversion. -/
def ColorFrame : Type := Nat → Nat → Nat × Nat × Nat

/-- An illumination mask: `true` means the pixel is treated as lit
(a nonzero byte in the `cv::Mat` mask). -/
def Mask : Type := Nat → Nat → Bool

/-- Frame used for an out-of-range `frames[i]` access (the C++ is undefined
there; the theorems that depend on frame contents assume enough frames). -/
def zeroFrame : Frame := fun _ _ => 0

/-- Value of an `Int` stored into a `uint16_t` (two's-complement
truncation, as the C++ conversion performs). -/
def u16 (v : Int) : Nat := (Int.emod v 65536).toNat

/-- Arithmetic right shift by one bit, the behaviour of `>> 1` on a signed
negative int on every mainstream C++ target (floor division by 2). -/
def sar1 (v : Int) : Int := Int.fdiv v 2

/-- Clamping of an integer to the signed 16-bit range, as
`cv::saturate_cast<int16_t>` does when `cv::subtract` writes a `CV_16S`
result. -/
def clamp16 (v : Int) : Int := max (-32768) (min 32767 v)

/-- Ceiling of the base-2 logarithm, computed structurally (fuel equals the
argument, which suffices).  This models `ceil(log(double(w)) / log(2.0))`
from line 67 of the source, taking the double-precision logarithms to be
exact. -/
def ceilLog2Aux : Nat → Nat → Nat
  | 0, _ => 0
  | fuel+1, w => if w ≤ 1 then 0 else ceilLog2Aux fuel ((w + 1) / 2) + 1

/-- Ceiling log2 entry point; see `ceilLog2Aux`. -/
def ceilLog2 (w : Nat) : Nat := ceilLog2Aux w w

/-- Source line 67: `column_frame_count = (uint16_t)ceil(log(w)/log(2)) * 2`,
with the intermediate `uint16_t` conversion and the final store into a
`uint16_t` both modelled by `% 65536`. -/
def columnFrameCount (projW : Nat) : Nat := ((ceilLog2 projW % 65536) * 2) % 65536

/-- Per-pixel decode state: the two uint16 coordinate accumulators
`coordinates[2*pos]` / `coordinates[2*pos+1]`, the parity toggle
`temp[pos]`, and the uint16 error level `error[pos]`. -/
structure PixState where
  cx : Nat
  cy : Nat
  temp : Bool
  err : Nat
deriving DecidableEq

/-- Noise-band test `pixel > -threshold && pixel < threshold` from source
lines 84 and 99. -/
def band (t : Int) (d : Int) : Bool := decide (-t < d) && decide (d < t)

/-- Body of the `forEach` lambda of the horizontal pass (source lines
80-88): shift the x-accumulator, flip the toggle against the sign bit of
the difference, record a strictly larger error weight when the difference
is inside the noise band, then set the low bit from the toggle. -/
def stepX (t : Int) (w : Nat) (s : PixState) (d : Int) : PixState :=
  let cx1 := (s.cx * 2) % 65536
  let tmp := s.temp != decide (0 ≤ d)
  let er := if band t d && decide (s.err < w) then w else s.err
  ⟨if tmp then (cx1 + 1) % 65536 else cx1, s.cy, tmp, er⟩

/-- Body of the `forEach` lambda of the vertical pass (source lines
95-103), identical to `stepX` but acting on the y-accumulator. -/
def stepY (t : Int) (w : Nat) (s : PixState) (d : Int) : PixState :=
  let cy1 := (s.cy * 2) % 65536
  let tmp := s.temp != decide (0 ≤ d)
  let er := if band t d && decide (s.err < w) then w else s.err
  ⟨s.cx, if tmp then (cy1 + 1) % 65536 else cy1, tmp, er⟩

/-- Full per-pixel decode: fold the horizontal (difference, weight) pairs,
reset the toggle (the `memset` on source line 90), then fold the vertical
pairs.  Coordinates and error level persist across the two passes. -/
def decodePix (t : Int) (hdw vdw : List (Int × Nat)) : PixState :=
  let s1 := hdw.foldl (fun s p => stepX t p.2 s p.1) ⟨0, 0, false, 0⟩
  vdw.foldl (fun s p => stepY t p.2 s p.1) ⟨s1.cx, s1.cy, false, s1.err⟩

/-- Number of iterations of the horizontal loop (source line 77):
`column_frame_count` is always even, one iteration per frame pair. -/
def hPairCount (cfc : Nat) : Nat := cfc / 2

/-- Number of iterations of the vertical loop (source line 92), which runs
while `i < frames.size()` stepping by two from `column_frame_count`. -/
def vPairCount (n cfc : Nat) : Nat := (n - cfc + 1) / 2

/-- First frame index of each horizontal bit-plane pair. -/
def hIdxs (cfc : Nat) : List Nat := (List.range (hPairCount cfc)).map (fun j => 2 * j)

/-- First frame index of each vertical bit-plane pair. -/
def vIdxs (n cfc : Nat) : List Nat :=
  (List.range (vPairCount n cfc)).map (fun k => cfc + 2 * k)

/-- Confidence weight of horizontal pair `j` (source line 78):
`(uint8_t)((column_frame_count - i) >> 1)` with `i = 2*j`. -/
def hWeights (cfc : Nat) : List Nat :=
  (List.range (hPairCount cfc)).map (fun j => ((cfc - 2 * j) / 2) % 256)

/-- Confidence weight of vertical pair `k` (source line 93):
`(uint16_t)(((uint16_t)frames.size() - column_frame_count - i) >> 1)` with
`i = column_frame_count + 2*k`, computed in signed int arithmetic and then
truncated to `uint16_t`. -/
def vWeights (n cfc : Nat) : List Nat :=
  (List.range (vPairCount n cfc)).map
    (fun k => u16 (sar1 (((n % 65536 : Nat) : Int) - cfc - (cfc + 2 * k))))

/-- Per-pixel difference sequence over the given pair base indices,
modelling `cv::subtract(frames[i], frames[i+1], diff, mask, CV_16S)`: where
the mask is unset the destination pixel of the shared `diff` matrix keeps
its previous value (taken as 0 before the first pass, where the C++ leaves
it unspecified); where it is set the pixel becomes the saturated signed
difference. -/
def diffsAt (frames : List Frame) (mask : Mask) (idxs : List Nat) (r c : Nat) : List Int :=
  (idxs.foldl (fun (acc : List Int × Int) i =>
      let d := if mask r c then
          clamp16 (((frames.getD i zeroFrame) r c : Int) - ((frames.getD (i+1) zeroFrame) r c : Int))
        else acc.2
      (acc.1 ++ [d], d)) ([], 0)).1

/-- Decode of the pixel at (row `r`, column `c`): both passes of source
lines 77-104, expressed per pixel (each pixel's buffers evolve
independently of every other pixel's). -/
def decodeAt (frames : List Frame) (mask : Mask) (t : Int) (projW : Nat) (r c : Nat) : PixState :=
  let cfc := columnFrameCount projW
  let n := frames.length
  let ds := diffsAt frames mask (hIdxs cfc ++ vIdxs n cfc) r c
  decodePix t ((ds.take (hPairCount cfc)).zip (hWeights cfc))
    ((ds.drop (hPairCount cfc)).zip (vWeights n cfc))

/-- Error level of flat pixel `pos = row * camera_width + col`, as stored
in the `error` buffer. -/
def errAt (frames : List Frame) (mask : Mask) (t : Int) (projW camW : Nat) (pos : Nat) : Nat :=
  (decodeAt frames mask t projW (pos / camW) (pos % camW)).err

/-- Histogram bucket `l` of the error buffer (source lines 109-113): the
number of pixels whose error level equals `l`; only levels strictly below
4 are ever tallied by the source loop. -/
def errCount (frames : List Frame) (mask : Mask) (t : Int) (projW camH camW : Nat) (l : Nat) : Nat :=
  ((List.range (camW * camH)).filter
    (fun pos => decide (errAt frames mask t projW camW pos = l))).length

/-- Initial `error_counts` array (source lines 106-113): buckets 0..3 hold
the per-level pixel counts, bucket 4 starts at zero. -/
def ec0 (frames : List Frame) (mask : Mask) (t : Int) (projW camH camW : Nat) : List Int :=
  [(errCount frames mask t projW camH camW 0 : Int),
   (errCount frames mask t projW camH camW 1 : Int),
   (errCount frames mask t projW camH camW 2 : Int),
   (errCount frames mask t projW camH camW 3 : Int), 0]

/-- The selection loop of source line 115, with explicit fuel (the loop
runs at most four times): while `allowed_error < 4` and the current bucket
is below `minPointCount`, advance and accumulate the running cumulative
count into the next bucket. -/
def selGo (fuel : Nat) (a : Nat) (ec : List Int) (m : Int) : Nat × List Int :=
  match fuel with
  | 0 => (a, ec)
  | fuel' + 1 =>
    if a < 4 ∧ ec.getD a 0 < m then
      selGo fuel' (a + 1) (ec.set (a + 1) (ec.getD (a + 1) 0 + ec.getD a 0)) m
    else (a, ec)

/-- Final `allowed_error` value after the selection loop. -/
def allowedErrorOf (ec : List Int) (m : Int) : Nat := (selGo 5 0 ec m).1

/-- Capacity reserved for the output vectors (source lines 117-120):
`some` of the cumulative count when `allowed_error < 4`, otherwise the
reservation is skipped. -/
def reservedOf (ec : List Int) (m : Int) : Option Int :=
  let r := selGo 5 0 ec m
  if r.1 < 4 then some (r.2.getD r.1 0) else none

/-- The bounds-and-error test of source line 130, with every comparison
performed after the C++ integer promotions: `p_x` and `p_y` are `uint16_t`
values (hence the casts to `Int` for the signed comparisons against the
`cv::Size` fields and `allowed_error`). -/
def boundsAndError (projW projH allowed px py er : Nat) : Bool :=
  decide ((0 : Int) ≤ (px : Int)) && decide ((px : Int) < (projW : Int)) &&
  decide ((0 : Int) ≤ (py : Int)) && decide ((py : Int) < (projH : Int)) &&
  decide ((er : Int) ≤ (allowed : Int))

/-- Row-major camera scan order of source lines 126-127: `y` outer, `x`
inner; each element is the `(x, y)` pair pushed as `cv::Point(x, y)`. -/
def pixelList (h w : Nat) : List (Nat × Nat) :=
  (List.range h).flatMap (fun y => (List.range w).map (fun x => (x, y)))

/-- The final filtering loop (source lines 124-135): conditionally append
the camera point and the decoded projector point to the two parallel
output sequences. -/
def filterLoop (cond : Nat → Nat → Bool) (proj : Nat → Nat → Nat × Nat)
    (pixels : List (Nat × Nat)) : List (Nat × Nat) × List (Nat × Nat) :=
  pixels.foldl
    (fun acc p => if cond p.1 p.2 then (acc.1 ++ [p], acc.2 ++ [proj p.1 p.2]) else acc)
    ([], [])

/-- Observable outcome of `getCameraProjectionPairs`: the two output point
vectors, the selected error tolerance, and the capacity reservation. -/
structure PairsResult where
  cameraPoints : List (Nat × Nat)
  projectionPoints : List (Nat × Nat)
  allowedError : Nat
  reserved : Option Int
deriving DecidableEq

/-- Embedding of `GrayCodeCalibration::getCameraProjectionPairs` (source
lines 66-139).  `camH`/`camW` are the dimensions carried by `frames[0]`. -/
def getCameraProjectionPairs (frames : List Frame) (projW projH : Nat) (mask : Mask)
    (camH camW : Nat) (minPointCount : Int) (threshold : Int) : PairsResult :=
  let ec := ec0 frames mask threshold projW camH camW
  let allowed := allowedErrorOf ec minPointCount
  let cond := fun x y =>
    let s := decodeAt frames mask threshold projW y x
    boundsAndError projW projH allowed s.cx s.cy s.err
  let proj := fun x y =>
    let s := decodeAt frames mask threshold projW y x
    (s.cx, s.cy)
  let fp := filterLoop cond proj (pixelList camH camW)
  ⟨fp.1, fp.2, allowed, reservedOf ec minPointCount⟩

/-! ### Synthetic Gray-code capture scenario

A 10×10 camera observing an 8×8 projector: camera pixel (x, y) receives the
standard (reflected) Gray code of the projector coordinate (x % 8, y % 8),
three horizontal bit-plane pairs followed by three vertical ones, most
significant bit first, rendered noise-free as intensities 255/0 with the
photometric inverse in the second frame of each pair. -/

/-- Reflected Gray code of a coordinate value. -/
def grayOf (v : Nat) : Nat := v ^^^ (v / 2)

/-- Pattern frame of horizontal bit-plane pair `j` (j = 0 is the most
significant of the three bits). -/
def patFrameH (j : Nat) : Frame := fun _r c => if (grayOf (c % 8)).testBit (2 - j) then 255 else 0

/-- Inverse frame of horizontal bit-plane pair `j`. -/
def invFrameH (j : Nat) : Frame := fun _r c => if (grayOf (c % 8)).testBit (2 - j) then 0 else 255

/-- Pattern frame of vertical bit-plane pair `k`. -/
def patFrameV (k : Nat) : Frame := fun r _c => if (grayOf (r % 8)).testBit (2 - k) then 255 else 0

/-- Inverse frame of vertical bit-plane pair `k`. -/
def invFrameV (k : Nat) : Frame := fun r _c => if (grayOf (r % 8)).testBit (2 - k) then 0 else 255

/-- The twelve-frame noise-free capture sequence of the scenario. -/
def scenarioFrames : List Frame :=
  [patFrameH 0, invFrameH 0, patFrameH 1, invFrameH 1, patFrameH 2, invFrameH 2,
   patFrameV 0, invFrameV 0, patFrameV 1, invFrameV 1, patFrameV 2, invFrameV 2]

/-- C1: on the noise-free Gray-code scenario (10×10 camera, 8×8 projector,
12 frames, all-true mask, minPointCount = 50, noise threshold 10),
`getCameraProjectionPairs` returns a pair for every one of the 100 camera
pixels in row-major order, every projector point equals the coordinate
encoded by the patterns, every pixel's error level is 0, and the selected
tolerance is level 0. -/
theorem scenario_roundtrip_decode :
    (getCameraProjectionPairs scenarioFrames 8 8 (fun _ _ => true) 10 10 50 10).cameraPoints
        = pixelList 10 10 ∧
    (getCameraProjectionPairs scenarioFrames 8 8 (fun _ _ => true) 10 10 50 10).cameraPoints.length
        = 100 ∧
    (getCameraProjectionPairs scenarioFrames 8 8 (fun _ _ => true) 10 10 50 10).projectionPoints
        = (pixelList 10 10).map (fun p => (p.1 % 8, p.2 % 8)) ∧
    ((List.range 100).all fun pos =>
        decide (errAt scenarioFrames (fun _ _ => true) 10 8 10 pos = 0)) = true ∧
    (getCameraProjectionPairs scenarioFrames 8 8 (fun _ _ => true) 10 10 50 10).allowedError
        = 0 := by
  decide

/-- C4 (failing evaluation): in the scenario layout (12 frames, 6 of them
horizontal, i.e. 3 vertical pairs), the horizontal pass assigns the
strictly decreasing weights 3, 2, 1, but the vertical pass assigns its
first (most significant) pair weight 0 and the later pairs 65535 and 65534
(the signed value `frames.size() - column_frame_count - i` underflows and
is truncated to `uint16_t`), so the vertical weights neither decrease with
position nor give the first pair the highest weight. -/
theorem vertical_weights_at_scenario :
    hWeights 6 = [3, 2, 1] ∧
    vWeights 12 6 = [0, 65535, 65534] ∧
    ¬ ((vWeights 12 6).getD 1 0 < (vWeights 12 6).getD 0 0) ∧
    ¬ (∀ w ∈ vWeights 12 6, w ≤ (vWeights 12 6).getD 0 0) := by
  decide

/-! ### The final filtering loop -/

lemma boundsAndError_iff (W H a px py e : Nat) :
    boundsAndError W H a px py e = true ↔ (px < W ∧ py < H ∧ e ≤ a) := by
  simp [boundsAndError]
  tauto

/-- C7: the lower-bound checks `p_x >= 0` and `p_y >= 0` of source line 130
compare unsigned 16-bit values (cast to the signed comparison type) against
zero, so they hold for every pixel; the whole bounds-and-error test is
equal to the test with those two conjuncts removed, leaving only the strict
upper bounds and the error comparison able to reject a pixel. -/
theorem unsigned_lower_bound_noop (W H a px py e : Nat) :
    decide ((0 : Int) ≤ (px : Int)) = true ∧
    decide ((0 : Int) ≤ (py : Int)) = true ∧
    boundsAndError W H a px py e
      = (decide ((px : Int) < (W : Int)) && decide ((py : Int) < (H : Int)) &&
         decide ((e : Int) ≤ (a : Int))) := by
  refine ⟨by simp, by simp, ?_⟩
  simp [boundsAndError]

lemma filterLoop_go (cond : Nat → Nat → Bool) (proj : Nat → Nat → Nat × Nat) :
    ∀ (pixels : List (Nat × Nat)) (a b : List (Nat × Nat)),
    pixels.foldl
        (fun acc p => if cond p.1 p.2 then (acc.1 ++ [p], acc.2 ++ [proj p.1 p.2]) else acc)
        (a, b)
      = (a ++ pixels.filter (fun p => cond p.1 p.2),
         b ++ (pixels.filter (fun p => cond p.1 p.2)).map (fun p => proj p.1 p.2)) := by
  intro pixels
  induction pixels with
  | nil => intro a b; simp
  | cons p ps ih =>
    intro a b
    rw [List.foldl_cons]
    cases hc : cond p.1 p.2
    · simp [hc, ih, List.filter_cons]
    · simp [hc, ih, List.filter_cons]

lemma filterLoop_eq (cond : Nat → Nat → Bool) (proj : Nat → Nat → Nat × Nat)
    (pixels : List (Nat × Nat)) :
    filterLoop cond proj pixels
      = (pixels.filter (fun p => cond p.1 p.2),
         (pixels.filter (fun p => cond p.1 p.2)).map (fun p => proj p.1 p.2)) := by
  simpa [filterLoop] using filterLoop_go cond proj pixels [] []

lemma mem_pixelList (h w x y : Nat) : (x, y) ∈ pixelList h w ↔ x < w ∧ y < h := by
  simp [pixelList]
  aesop

/-- C2: a correspondence pair for a camera pixel appears in the output
lists exactly when the decoded projector coordinate is inside
[0, projW) × [0, projH) and the error level is at most the selected
tolerance; the qualifying pixels are kept in row-major camera scan order
(the output is a filter of the row-major pixel list), and the two parallel
output sequences always have equal length. -/
theorem pair_filter_characterization (frames : List Frame) (projW projH : Nat) (mask : Mask)
    (camH camW : Nat) (m t : Int) :
    (getCameraProjectionPairs frames projW projH mask camH camW m t).cameraPoints.length
      = (getCameraProjectionPairs frames projW projH mask camH camW m t).projectionPoints.length ∧
    (getCameraProjectionPairs frames projW projH mask camH camW m t).cameraPoints
      = (pixelList camH camW).filter (fun p =>
          boundsAndError projW projH
            (allowedErrorOf (ec0 frames mask t projW camH camW) m)
            (decodeAt frames mask t projW p.2 p.1).cx
            (decodeAt frames mask t projW p.2 p.1).cy
            (decodeAt frames mask t projW p.2 p.1).err) ∧
    (getCameraProjectionPairs frames projW projH mask camH camW m t).projectionPoints
      = ((pixelList camH camW).filter (fun p =>
          boundsAndError projW projH
            (allowedErrorOf (ec0 frames mask t projW camH camW) m)
            (decodeAt frames mask t projW p.2 p.1).cx
            (decodeAt frames mask t projW p.2 p.1).cy
            (decodeAt frames mask t projW p.2 p.1).err)).map (fun p =>
          ((decodeAt frames mask t projW p.2 p.1).cx,
           (decodeAt frames mask t projW p.2 p.1).cy)) ∧
    (∀ x y : Nat,
      (x, y) ∈ (getCameraProjectionPairs frames projW projH mask camH camW m t).cameraPoints
        ↔ x < camW ∧ y < camH ∧
          (decodeAt frames mask t projW y x).cx < projW ∧
          (decodeAt frames mask t projW y x).cy < projH ∧
          (decodeAt frames mask t projW y x).err
            ≤ allowedErrorOf (ec0 frames mask t projW camH camW) m) := by
  have hcam :
      (getCameraProjectionPairs frames projW projH mask camH camW m t).cameraPoints
        = (pixelList camH camW).filter (fun p =>
            boundsAndError projW projH
              (allowedErrorOf (ec0 frames mask t projW camH camW) m)
              (decodeAt frames mask t projW p.2 p.1).cx
              (decodeAt frames mask t projW p.2 p.1).cy
              (decodeAt frames mask t projW p.2 p.1).err) := by
    simp only [getCameraProjectionPairs, filterLoop_eq]
  have hproj :
      (getCameraProjectionPairs frames projW projH mask camH camW m t).projectionPoints
        = ((pixelList camH camW).filter (fun p =>
            boundsAndError projW projH
              (allowedErrorOf (ec0 frames mask t projW camH camW) m)
              (decodeAt frames mask t projW p.2 p.1).cx
              (decodeAt frames mask t projW p.2 p.1).cy
              (decodeAt frames mask t projW p.2 p.1).err)).map (fun p =>
            ((decodeAt frames mask t projW p.2 p.1).cx,
             (decodeAt frames mask t projW p.2 p.1).cy)) := by
    simp only [getCameraProjectionPairs, filterLoop_eq]
  refine ⟨by rw [hcam, hproj, List.length_map], hcam, hproj, ?_⟩
  intro x y
  rw [hcam, List.mem_filter, mem_pixelList, boundsAndError_iff]
  tauto

/-! ### Error-level accumulation -/

/-- Maximum confidence weight among the bit-plane pairs whose difference
falls inside the noise band, floored at 0 (the `calloc` initialisation of
the `error` buffer). -/
def bandedMax (t : Int) (l : List (Int × Nat)) : Nat :=
  (l.filter (fun p => band t p.1)).foldl (fun a p => max a p.2) 0

lemma foldl_max_init (l : List (Int × Nat)) (a : Nat) :
    l.foldl (fun x p => max x p.2) a = max a (l.foldl (fun x p => max x p.2) 0) := by
  induction l generalizing a with
  | nil => simp
  | cons p l ih =>
    rw [List.foldl_cons, List.foldl_cons, ih, ih (max 0 p.2)]
    generalize l.foldl (fun x p => max x p.2) 0 = z
    omega

lemma bandedMax_cons (t : Int) (p : Int × Nat) (l : List (Int × Nat)) :
    bandedMax t (p :: l) = if band t p.1 then max p.2 (bandedMax t l) else bandedMax t l := by
  cases hb : band t p.1
  · simp [bandedMax, List.filter_cons, hb]
  · simp only [bandedMax, List.filter_cons, hb, if_true, List.foldl_cons]
    rw [foldl_max_init]
    generalize (l.filter (fun p => band t p.1)).foldl (fun a p => max a p.2) 0 = z
    omega

lemma bandedMax_append (t : Int) (l1 l2 : List (Int × Nat)) :
    bandedMax t (l1 ++ l2) = max (bandedMax t l1) (bandedMax t l2) := by
  simp only [bandedMax, List.filter_append, List.foldl_append]
  rw [foldl_max_init]

lemma stepX_err (t : Int) (w : Nat) (s : PixState) (d : Int) :
    (stepX t w s d).err = if band t d && decide (s.err < w) then w else s.err := rfl

lemma stepY_err (t : Int) (w : Nat) (s : PixState) (d : Int) :
    (stepY t w s d).err = if band t d && decide (s.err < w) then w else s.err := rfl

lemma err_foldX (t : Int) (l : List (Int × Nat)) :
    ∀ s : PixState,
      (l.foldl (fun s p => stepX t p.2 s p.1) s).err = max s.err (bandedMax t l) := by
  induction l with
  | nil => intro s; simp [bandedMax]
  | cons p l ih =>
    intro s
    rw [List.foldl_cons, ih, stepX_err, bandedMax_cons]
    cases hb : band t p.1
    · simp
    · by_cases he : s.err < p.2 <;> simp [he] <;> omega

lemma err_foldY (t : Int) (l : List (Int × Nat)) :
    ∀ s : PixState,
      (l.foldl (fun s p => stepY t p.2 s p.1) s).err = max s.err (bandedMax t l) := by
  induction l with
  | nil => intro s; simp [bandedMax]
  | cons p l ih =>
    intro s
    rw [List.foldl_cons, ih, stepY_err, bandedMax_cons]
    cases hb : band t p.1
    · simp
    · by_cases he : s.err < p.2 <;> simp [he] <;> omega

/-- C3: over one call (both the horizontal and the vertical pass), a
pixel's stored error level never decreases at any step, a step either
leaves it unchanged or replaces it by a strictly larger value, and the
final error level is the maximum confidence weight recorded over the
bit-plane pairs of both axes whose difference fell inside the noise band
(0 when none did). -/
theorem error_level_monotone (t : Int) (hdw vdw : List (Int × Nat)) :
    (∀ (w : Nat) (s : PixState) (d : Int),
        s.err ≤ (stepX t w s d).err ∧ s.err ≤ (stepY t w s d).err ∧
        ((stepX t w s d).err = s.err ∨ s.err < (stepX t w s d).err) ∧
        ((stepY t w s d).err = s.err ∨ s.err < (stepY t w s d).err)) ∧
    (decodePix t hdw vdw).err = bandedMax t (hdw ++ vdw) := by
  constructor
  · intro w s d
    rw [stepX_err, stepY_err]
    by_cases h : (band t d && decide (s.err < w)) = true
    · have hw : s.err < w := by
        have := h
        simp only [Bool.and_eq_true, decide_eq_true_eq] at this
        exact this.2
      simp [h]
      omega
    · simp [h]
  · show (decodePix t hdw vdw).err = _
    unfold decodePix
    rw [err_foldY, err_foldX, bandedMax_append]
    simp

/-! ### Tolerance selection -/

lemma selGo_succ (fuel a : Nat) (ec : List Int) (m : Int) :
    selGo (fuel + 1) a ec m =
      if a < 4 ∧ ec.getD a 0 < m then
        selGo fuel (a + 1) (ec.set (a + 1) (ec.getD (a + 1) 0 + ec.getD a 0)) m
      else (a, ec) := rfl

/-- Cumulative histogram count: the number of pixels whose error level is
at most `L` (each bucket counting only levels strictly below 4). -/
def cumCount (frames : List Frame) (mask : Mask) (t : Int) (projW camH camW : Nat) :
    Nat → Nat
  | 0 => errCount frames mask t projW camH camW 0
  | L + 1 => cumCount frames mask t projW camH camW L
      + errCount frames mask t projW camH camW (L + 1)

lemma selGo_five (c0 c1 c2 c3 m : Int) :
    selGo 5 0 [c0, c1, c2, c3, 0] m =
      if m ≤ c0 then (0, [c0, c1, c2, c3, 0])
      else if m ≤ c1 + c0 then (1, [c0, c1 + c0, c2, c3, 0])
      else if m ≤ c2 + (c1 + c0) then (2, [c0, c1 + c0, c2 + (c1 + c0), c3, 0])
      else if m ≤ c3 + (c2 + (c1 + c0)) then
        (3, [c0, c1 + c0, c2 + (c1 + c0), c3 + (c2 + (c1 + c0)), 0])
      else
        (4, [c0, c1 + c0, c2 + (c1 + c0), c3 + (c2 + (c1 + c0)),
             0 + (c3 + (c2 + (c1 + c0)))]) := by
  by_cases h0 : m ≤ c0
  · rw [show (5 : Nat) = 4 + 1 from rfl, selGo_succ, if_neg (by simp [List.getD]; omega),
      if_pos h0]
  by_cases h1 : m ≤ c1 + c0
  · rw [show (5 : Nat) = 4 + 1 from rfl, selGo_succ, if_pos (by simp [List.getD]; omega)]
    show selGo 4 1 [c0, c1 + c0, c2, c3, 0] m = _
    rw [show (4 : Nat) = 3 + 1 from rfl, selGo_succ, if_neg (by simp [List.getD]; omega),
      if_neg h0, if_pos h1]
  by_cases h2 : m ≤ c2 + (c1 + c0)
  · rw [show (5 : Nat) = 4 + 1 from rfl, selGo_succ, if_pos (by simp [List.getD]; omega)]
    show selGo 4 1 [c0, c1 + c0, c2, c3, 0] m = _
    rw [show (4 : Nat) = 3 + 1 from rfl, selGo_succ, if_pos (by simp [List.getD]; omega)]
    show selGo 3 2 [c0, c1 + c0, c2 + (c1 + c0), c3, 0] m = _
    rw [show (3 : Nat) = 2 + 1 from rfl, selGo_succ, if_neg (by simp [List.getD]; omega),
      if_neg h0, if_neg h1, if_pos h2]
  by_cases h3 : m ≤ c3 + (c2 + (c1 + c0))
  · rw [show (5 : Nat) = 4 + 1 from rfl, selGo_succ, if_pos (by simp [List.getD]; omega)]
    show selGo 4 1 [c0, c1 + c0, c2, c3, 0] m = _
    rw [show (4 : Nat) = 3 + 1 from rfl, selGo_succ, if_pos (by simp [List.getD]; omega)]
    show selGo 3 2 [c0, c1 + c0, c2 + (c1 + c0), c3, 0] m = _
    rw [show (3 : Nat) = 2 + 1 from rfl, selGo_succ, if_pos (by simp [List.getD]; omega)]
    show selGo 2 3 [c0, c1 + c0, c2 + (c1 + c0), c3 + (c2 + (c1 + c0)), 0] m = _
    rw [show (2 : Nat) = 1 + 1 from rfl, selGo_succ, if_neg (by simp [List.getD]; omega),
      if_neg h0, if_neg h1, if_neg h2, if_pos h3]
  · rw [show (5 : Nat) = 4 + 1 from rfl, selGo_succ, if_pos (by simp [List.getD]; omega)]
    show selGo 4 1 [c0, c1 + c0, c2, c3, 0] m = _
    rw [show (4 : Nat) = 3 + 1 from rfl, selGo_succ, if_pos (by simp [List.getD]; omega)]
    show selGo 3 2 [c0, c1 + c0, c2 + (c1 + c0), c3, 0] m = _
    rw [show (3 : Nat) = 2 + 1 from rfl, selGo_succ, if_pos (by simp [List.getD]; omega)]
    show selGo 2 3 [c0, c1 + c0, c2 + (c1 + c0), c3 + (c2 + (c1 + c0)), 0] m = _
    rw [show (2 : Nat) = 1 + 1 from rfl, selGo_succ, if_pos (by simp [List.getD]; omega)]
    show selGo 1 4
        [c0, c1 + c0, c2 + (c1 + c0), c3 + (c2 + (c1 + c0)), 0 + (c3 + (c2 + (c1 + c0)))] m
        = _
    rw [show (1 : Nat) = 0 + 1 from rfl, selGo_succ, if_neg (by omega)]
    rw [if_neg h0, if_neg h1, if_neg h2, if_neg h3]

lemma allowed_five (c0 c1 c2 c3 m : Int) :
    allowedErrorOf [c0, c1, c2, c3, 0] m =
      if m ≤ c0 then 0
      else if m ≤ c1 + c0 then 1
      else if m ≤ c2 + (c1 + c0) then 2
      else if m ≤ c3 + (c2 + (c1 + c0)) then 3
      else 4 := by
  rw [allowedErrorOf, selGo_five]
  split_ifs <;> rfl

lemma reserved_five (c0 c1 c2 c3 m : Int) :
    reservedOf [c0, c1, c2, c3, 0] m =
      if m ≤ c0 then some c0
      else if m ≤ c1 + c0 then some (c1 + c0)
      else if m ≤ c2 + (c1 + c0) then some (c2 + (c1 + c0))
      else if m ≤ c3 + (c2 + (c1 + c0)) then some (c3 + (c2 + (c1 + c0)))
      else none := by
  rw [reservedOf, selGo_five]
  split_ifs <;> first | rfl | (exfalso; simp_all)

lemma cumCount_as_counts (frames : List Frame) (mask : Mask) (t : Int)
    (projW camH camW : Nat) :
    cumCount frames mask t projW camH camW 0 = errCount frames mask t projW camH camW 0 ∧
    cumCount frames mask t projW camH camW 1
      = errCount frames mask t projW camH camW 0 + errCount frames mask t projW camH camW 1 ∧
    cumCount frames mask t projW camH camW 2
      = errCount frames mask t projW camH camW 0 + errCount frames mask t projW camH camW 1
        + errCount frames mask t projW camH camW 2 ∧
    cumCount frames mask t projW camH camW 3
      = errCount frames mask t projW camH camW 0 + errCount frames mask t projW camH camW 1
        + errCount frames mask t projW camH camW 2 + errCount frames mask t projW camH camW 3 := by
  refine ⟨rfl, rfl, rfl, rfl⟩

/-- C5: whenever some error level in 0..3 has cumulative histogram count at
least `minPointCount`, the loop selects the minimal such level (a level
strictly below 4 whose cumulative count reaches the minimum, with no
smaller level reaching it); when no level in 0..3 does, the selector ends
at the sentinel 4 and the output-vector capacity reservation is skipped. -/
theorem tolerance_selection (frames : List Frame) (mask : Mask) (t : Int)
    (projW camH camW : Nat) (m : Int) :
    ((∃ L, L < 4 ∧ m ≤ (cumCount frames mask t projW camH camW L : Int)) →
      (allowedErrorOf (ec0 frames mask t projW camH camW) m < 4 ∧
       m ≤ (cumCount frames mask t projW camH camW
              (allowedErrorOf (ec0 frames mask t projW camH camW) m) : Int) ∧
       (∀ L, L < 4 → m ≤ (cumCount frames mask t projW camH camW L : Int) →
          allowedErrorOf (ec0 frames mask t projW camH camW) m ≤ L))) ∧
    ((∀ L, L < 4 → ¬ m ≤ (cumCount frames mask t projW camH camW L : Int)) →
      allowedErrorOf (ec0 frames mask t projW camH camW) m = 4 ∧
      reservedOf (ec0 frames mask t projW camH camW) m = none) := by
  obtain ⟨e0, e1, e2, e3⟩ := cumCount_as_counts frames mask t projW camH camW
  have hec : ec0 frames mask t projW camH camW
      = [(errCount frames mask t projW camH camW 0 : Int),
         (errCount frames mask t projW camH camW 1 : Int),
         (errCount frames mask t projW camH camW 2 : Int),
         (errCount frames mask t projW camH camW 3 : Int), 0] := rfl
  have ha : allowedErrorOf (ec0 frames mask t projW camH camW) m
      = if m ≤ (errCount frames mask t projW camH camW 0 : Int) then 0
        else if m ≤ (errCount frames mask t projW camH camW 1 : Int)
            + (errCount frames mask t projW camH camW 0 : Int) then 1
        else if m ≤ (errCount frames mask t projW camH camW 2 : Int)
            + ((errCount frames mask t projW camH camW 1 : Int)
              + (errCount frames mask t projW camH camW 0 : Int)) then 2
        else if m ≤ (errCount frames mask t projW camH camW 3 : Int)
            + ((errCount frames mask t projW camH camW 2 : Int)
              + ((errCount frames mask t projW camH camW 1 : Int)
                + (errCount frames mask t projW camH camW 0 : Int))) then 3
        else 4 := by
    rw [hec, allowed_five]
  have hr : reservedOf (ec0 frames mask t projW camH camW) m
      = if m ≤ (errCount frames mask t projW camH camW 0 : Int) then
          some (errCount frames mask t projW camH camW 0 : Int)
        else if m ≤ (errCount frames mask t projW camH camW 1 : Int)
            + (errCount frames mask t projW camH camW 0 : Int) then
          some ((errCount frames mask t projW camH camW 1 : Int)
            + (errCount frames mask t projW camH camW 0 : Int))
        else if m ≤ (errCount frames mask t projW camH camW 2 : Int)
            + ((errCount frames mask t projW camH camW 1 : Int)
              + (errCount frames mask t projW camH camW 0 : Int)) then
          some ((errCount frames mask t projW camH camW 2 : Int)
            + ((errCount frames mask t projW camH camW 1 : Int)
              + (errCount frames mask t projW camH camW 0 : Int)))
        else if m ≤ (errCount frames mask t projW camH camW 3 : Int)
            + ((errCount frames mask t projW camH camW 2 : Int)
              + ((errCount frames mask t projW camH camW 1 : Int)
                + (errCount frames mask t projW camH camW 0 : Int))) then
          some ((errCount frames mask t projW camH camW 3 : Int)
            + ((errCount frames mask t projW camH camW 2 : Int)
              + ((errCount frames mask t projW camH camW 1 : Int)
                + (errCount frames mask t projW camH camW 0 : Int))))
        else none := by
    rw [hec, reserved_five]
  constructor
  · rintro ⟨L, hL4, hLm⟩
    have hcum : m ≤ (errCount frames mask t projW camH camW 0 : Int) ∨
        m ≤ (errCount frames mask t projW camH camW 0 : Int)
          + (errCount frames mask t projW camH camW 1 : Int) ∨
        m ≤ (errCount frames mask t projW camH camW 0 : Int)
          + (errCount frames mask t projW camH camW 1 : Int)
          + (errCount frames mask t projW camH camW 2 : Int) ∨
        m ≤ (errCount frames mask t projW camH camW 0 : Int)
          + (errCount frames mask t projW camH camW 1 : Int)
          + (errCount frames mask t projW camH camW 2 : Int)
          + (errCount frames mask t projW camH camW 3 : Int) := by
      interval_cases L
      · rw [e0] at hLm; omega
      · rw [e1] at hLm; push_cast at hLm; omega
      · rw [e2] at hLm; push_cast at hLm; omega
      · rw [e3] at hLm; push_cast at hLm; omega
    refine ⟨?_, ?_, ?_⟩
    · rw [ha]; split_ifs <;> omega
    · rw [ha]; split_ifs with g0 g1 g2 g3
      · rw [e0]; exact g0
      · rw [e1]; push_cast; omega
      · rw [e2]; push_cast; omega
      · rw [e3]; push_cast; omega
      · exfalso; omega
    · intro K hK4 hKm
      rw [ha]
      interval_cases K
      · rw [e0] at hKm; split_ifs; omega
      · rw [e1] at hKm; push_cast at hKm; split_ifs <;> omega
      · rw [e2] at hKm; push_cast at hKm; split_ifs <;> omega
      · rw [e3] at hKm; push_cast at hKm; split_ifs <;> omega
  · intro hnone
    have n0 := hnone 0 (by omega)
    have n1 := hnone 1 (by omega)
    have n2 := hnone 2 (by omega)
    have n3 := hnone 3 (by omega)
    rw [e0] at n0; rw [e1] at n1; rw [e2] at n2; rw [e3] at n3
    push_cast at n0 n1 n2 n3
    constructor
    · rw [ha]; split_ifs <;> omega
    · rw [hr]; split_ifs <;> first | rfl | omega

/-- Closed instance of C5: with no frames, a 1×1 camera and projector width
1 the single pixel decodes with error level 0, so minPointCount 1 is met at
level 0 and the selector returns the minimal qualifying level. -/
theorem tolerance_selection_witness :
    allowedErrorOf (ec0 [] (fun _ _ => true) 0 1 1 1) 1 < 4 ∧
    (1 : Int) ≤ (cumCount [] (fun _ _ => true) 0 1 1 1
        (allowedErrorOf (ec0 [] (fun _ _ => true) 0 1 1 1) 1) : Int) ∧
    (∀ L, L < 4 → (1 : Int) ≤ (cumCount [] (fun _ _ => true) 0 1 1 1 L : Int) →
      allowedErrorOf (ec0 [] (fun _ _ => true) 0 1 1 1) 1 ≤ L) :=
  (tolerance_selection [] (fun _ _ => true) 0 1 1 1 1).1 ⟨0, by decide, by decide⟩

/-- C6: for a fixed error-level buffer the selected tolerance level is
monotonically non-decreasing in `minPointCount`, and a `minPointCount`
exceeding the total number of pixels with error level below the unreliable
bucket yields the sentinel level 4. -/
theorem tolerance_monotone (frames : List Frame) (mask : Mask) (t : Int)
    (projW camH camW : Nat) (m1 m2 : Int) (h : m1 ≤ m2) :
    allowedErrorOf (ec0 frames mask t projW camH camW) m1
      ≤ allowedErrorOf (ec0 frames mask t projW camH camW) m2 ∧
    ((cumCount frames mask t projW camH camW 3 : Int) < m2 →
      allowedErrorOf (ec0 frames mask t projW camH camW) m2 = 4) := by
  obtain ⟨e0, e1, e2, e3⟩ := cumCount_as_counts frames mask t projW camH camW
  rw [show ec0 frames mask t projW camH camW
      = [(errCount frames mask t projW camH camW 0 : Int),
         (errCount frames mask t projW camH camW 1 : Int),
         (errCount frames mask t projW camH camW 2 : Int),
         (errCount frames mask t projW camH camW 3 : Int), 0] from rfl]
  rw [allowed_five, allowed_five, e3]
  push_cast
  constructor
  · split_ifs <;> omega
  · intro hbig
    split_ifs <;> omega

/-- Closed instance of C6 at minPointCount 1 and 5 on the one-pixel
configuration (total valid pixels 1, so 5 yields the sentinel). -/
theorem tolerance_monotone_witness :
    allowedErrorOf (ec0 [] (fun _ _ => true) 0 1 1 1) 1
      ≤ allowedErrorOf (ec0 [] (fun _ _ => true) 0 1 1 1) 5 ∧
    ((cumCount [] (fun _ _ => true) 0 1 1 1 3 : Int) < 5 →
      allowedErrorOf (ec0 [] (fun _ _ => true) 0 1 1 1) 5 = 4) :=
  tolerance_monotone [] (fun _ _ => true) 0 1 1 1 1 5 (by omega)

/-! ### Frame consumption layout -/

lemma ceilLog2Aux_eq (fuel : Nat) :
    ∀ w : Nat, w ≤ fuel → ceilLog2Aux fuel w = Nat.clog 2 w := by
  induction fuel with
  | zero =>
    intro w hw
    have hw0 : w = 0 := by omega
    subst hw0
    simp [ceilLog2Aux, Nat.clog]
  | succ f ih =>
    intro w hw
    by_cases h1 : w ≤ 1
    · interval_cases w <;> simp [ceilLog2Aux, Nat.clog]
    · have h2 : Nat.clog 2 w = Nat.clog 2 ((w + 2 - 1) / 2) + 1 :=
        Nat.clog_of_two_le (by norm_num) (by omega)
      rw [ceilLog2Aux, if_neg h1, ih ((w + 1) / 2) (by omega), h2,
        show (w + 2 - 1) / 2 = (w + 1) / 2 by norm_num]

lemma ceilLog2_eq_clog (w : Nat) : ceilLog2 w = Nat.clog 2 w :=
  ceilLog2Aux_eq w w le_rfl

/-- Frame indices touched by a sequence of bit-plane pairs: every pair with
base index `i` reads `frames[i]` and `frames[i+1]`. -/
def consumedFrames (idxs : List Nat) : List Nat :=
  idxs.foldr (fun i acc => i :: (i + 1) :: acc) []

lemma consumedFrames_cons (i : Nat) (l : List Nat) :
    consumedFrames (i :: l) = i :: (i + 1) :: consumedFrames l := rfl

lemma consumed_offset_range (v : Nat) :
    ∀ c : Nat, consumedFrames ((List.range v).map (fun k => c + 2 * k))
      = List.range' c (2 * v) := by
  induction v with
  | zero => intro c; rfl
  | succ v ih =>
    intro c
    have hmap : (List.range v).map ((fun k => c + 2 * k) ∘ (fun i => i + 1))
        = (List.range v).map (fun k => (c + 2) + 2 * k) := by
      apply List.map_congr_left
      intro a _
      simp only [Function.comp]
      omega
    rw [List.range_succ_eq_map, List.map_cons, List.map_map, hmap, consumedFrames_cons,
      ih (c + 2), show 2 * (v + 1) = 2 * v + 1 + 1 by ring]
    rfl

lemma consumed_even_range (p : Nat) :
    consumedFrames ((List.range p).map (fun j => 2 * j)) = List.range (2 * p) := by
  have h : (List.range p).map (fun j => 2 * j) = (List.range p).map (fun j => 0 + 2 * j) := by
    apply List.map_congr_left
    intro a _
    omega
  rw [h, consumed_offset_range, List.range_eq_range']

/-- C8: for a projector width no bigger than a C++ `int` allows and a
leftover after the horizontal prefix that is even, the decoder uses exactly
`2 * ceil(log2(projectorWidth))` leading frames as the horizontal
bit-plane pairs (one pair per bit, `ceil(log2 W)` pairs) and pairs up
exactly the remaining frame indices for the vertical axis. -/
theorem frame_consumption (projW n : Nat) (hW : projW ≤ 2 ^ 31)
    (hpar : (n - columnFrameCount projW) % 2 = 0) :
    columnFrameCount projW = 2 * Nat.clog 2 projW ∧
    (hIdxs (columnFrameCount projW)).length = Nat.clog 2 projW ∧
    consumedFrames (hIdxs (columnFrameCount projW)) = List.range (columnFrameCount projW) ∧
    consumedFrames (vIdxs n (columnFrameCount projW))
      = List.range' (columnFrameCount projW) (n - columnFrameCount projW) := by
  have hclog : Nat.clog 2 projW ≤ 31 := by
    calc Nat.clog 2 projW ≤ Nat.clog 2 (2 ^ 31) := Nat.clog_mono_right 2 hW
    _ = 31 := Nat.clog_pow 2 31 (by norm_num)
  have hc : columnFrameCount projW = 2 * Nat.clog 2 projW := by
    rw [columnFrameCount, ceilLog2_eq_clog, Nat.mod_eq_of_lt (by omega),
      Nat.mod_eq_of_lt (by omega), Nat.mul_comm]
  have hpc : hPairCount (columnFrameCount projW) = Nat.clog 2 projW := by
    simp only [hc, hPairCount]
    omega
  refine ⟨hc, ?_, ?_, ?_⟩
  · rw [hIdxs, List.length_map, List.length_range, hpc]
  · rw [hIdxs, hpc, consumed_even_range, hc]
  · rw [vIdxs, consumed_offset_range]
    have hv : 2 * vPairCount n (columnFrameCount projW) = n - columnFrameCount projW := by
      simp only [vPairCount]
      omega
    rw [hv]

/-- Closed instance of C8 at the scenario dimensions: projector width 8
(3 bit pairs, 6 horizontal frames) and 12 frames in total. -/
theorem frame_consumption_witness :
    columnFrameCount 8 = 2 * Nat.clog 2 8 ∧
    (hIdxs (columnFrameCount 8)).length = Nat.clog 2 8 ∧
    consumedFrames (hIdxs (columnFrameCount 8)) = List.range (columnFrameCount 8) ∧
    consumedFrames (vIdxs 12 (columnFrameCount 8))
      = List.range' (columnFrameCount 8) (12 - columnFrameCount 8) :=
  frame_consumption 8 12 (by norm_num) (by decide)

/-! ### Mask construction (`GrayCodeCalibration::getMask`, source lines 42-63) -/

/-- OpenCV fixed-point BGR-to-gray conversion (`cv::COLOR_BGR2GRAY`):
`(B*1868 + G*9617 + R*4899 + 2^13) >> 14`, saturated to a byte. -/
def grayOfBGR (p : Nat × Nat × Nat) : Nat :=
  min ((p.1 * 1868 + p.2.1 * 9617 + p.2.2 * 4899 + 8192) / 16384) 255

/-- Grayscale conversion of a whole frame. -/
def cvtGray (F : ColorFrame) : Frame := fun r c => grayOfBGR (F r c)

/-- Saturating byte subtraction, as `cv::subtract` on `CV_8U` operands:
negative results clamp to 0 (and the result is capped at 255). -/
def sub8 (a b : Nat) : Nat := min (a - b) 255

/-- The `difference` matrix of `getMask`: grayscale white minus grayscale
black, clamped to zero. -/
def diffFrame (white black : ColorFrame) : Frame :=
  fun r c => sub8 (cvtGray white r c) (cvtGray black r c)

/-- The 5-tap binomial kernel `[1,4,6,4,1]` (total weight 16) that OpenCV
uses for `GaussianBlur` with kernel size 5 and sigma 0, as offset/weight
pairs. -/
def gauss5 : List (Int × Nat) := [(-2, 1), (-1, 4), (0, 6), (1, 4), (2, 1)]

/-- BORDER_REFLECT_101 index mapping (faithful on the defined OpenCV
domain, images larger than the kernel radius). -/
def refl101 (n : Nat) (i : Int) : Nat :=
  if i < 0 then min (-i).toNat (n - 1)
  else if i < (n : Int) then i.toNat
  else 2 * (n - 1) - i.toNat

/-- Separable 5×5 Gaussian blur with the fixed-point rounding OpenCV
applies to `CV_8U` data (total weight 256, rounding add of 128). -/
def gaussianBlur5 (h w : Nat) (F : Frame) : Frame := fun r c =>
  ((gauss5.foldl (fun acc dr =>
      acc + dr.2 * (gauss5.foldl (fun acc2 dc =>
        acc2 + dc.2 * F (refl101 h ((r : Int) + dr.1)) (refl101 w ((c : Int) + dc.1))) 0)) 0)
    + 128) / 256

/-- Number of pixels of an `h`×`w` frame with value at most `i`. -/
def countLE (h w : Nat) (F : Frame) (i : Nat) : Nat :=
  ((pixelList h w).filter (fun p => decide (F p.2 p.1 ≤ i))).length

/-- Sum of the pixel values not exceeding `i`. -/
def sumLE (h w : Nat) (F : Frame) (i : Nat) : Nat :=
  ((pixelList h w).filter (fun p => decide (F p.2 p.1 ≤ i))).foldl
    (fun a p => a + F p.2 p.1) 0

/-- Sum of all pixel values. -/
def sumAll (h w : Nat) (F : Frame) : Nat :=
  (pixelList h w).foldl (fun a p => a + F p.2 p.1) 0

/-- One candidate threshold step of Otsu's method, in exact arithmetic: the
between-class variance `q1*q2*(mu1-mu2)^2` at split `i` equals
`(s1*n2 - s2*n1)^2 / (n1*n2*N^2)`, so candidates are compared by the
cross-multiplied integers; a split with an empty class is skipped (the
floating-point epsilon guards of the OpenCV implementation, exact here),
and a strictly larger variance replaces the stored best, keeping the first
maximiser. -/
def otsuStep (h w : Nat) (F : Frame) (best : Option (Int × Nat × Nat)) (i : Nat) :
    Option (Int × Nat × Nat) :=
  let N := h * w
  let n1 := countLE h w F i
  let n2 := N - n1
  if n1 = 0 ∨ n2 = 0 then best
  else
    let s1 := sumLE h w F i
    let s2 := sumAll h w F - s1
    let num := ((s1 : Int) * (n2 : Int) - (s2 : Int) * (n1 : Int)) ^ 2
    let den := n1 * n2
    match best with
    | none => some (num, den, i)
    | some b => if num * (b.2.1 : Int) > b.1 * (den : Int) then some (num, den, i) else best

/-- Otsu threshold of a frame: best split over the 256 byte values, 0 when
every split has an empty class. -/
def otsuThresh (h w : Nat) (F : Frame) : Nat :=
  match (List.range 256).foldl (otsuStep h w F) none with
  | none => 0
  | some b => b.2.2

/-- Embedding of `GrayCodeCalibration::getMask` (source lines 42-63): in
adaptive mode the clamped difference is blurred and binarized at its Otsu
threshold, otherwise it is binarized at the supplied fixed threshold;
`cv::threshold` with `THRESH_BINARY` sets a pixel exactly when the source
value strictly exceeds the threshold. -/
def getMask (camH camW : Nat) (whiteFrame blackFrame : ColorFrame)
    (useOtsu : Bool) (threshold : Int) : Mask :=
  let difference := diffFrame whiteFrame blackFrame
  if useOtsu then
    let blurred := gaussianBlur5 camH camW difference
    fun r c => decide ((blurred r c : Int) > (otsuThresh camH camW blurred : Int))
  else
    fun r c => decide ((difference r c : Int) > threshold)

/-- C9 (counterexample): with identical white and black frames but a
negative fixed threshold, the mask is true — the claim's "every threshold
configuration" fails, because `cv::threshold` compares the zero difference
strictly against the supplied threshold. -/
theorem getMask_negative_threshold :
    getMask 1 1 (fun _ _ => (0, 0, 0)) (fun _ _ => (0, 0, 0)) false (-1) 0 0 = true := by
  decide

lemma foldl_fixed {α β : Type} (f : α → β → α) (l : List β) (a : α)
    (h : ∀ (x : α) (b : β), b ∈ l → f x b = x) : l.foldl f a = a := by
  induction l generalizing a with
  | nil => rfl
  | cons b l ih =>
    rw [List.foldl_cons, h a b (by simp)]
    exact ih a (fun x b hb => h x b (by simp [hb]))

lemma length_pixelList (h w : Nat) : (pixelList h w).length = h * w := by
  induction h with
  | zero => simp [pixelList]
  | succ h ih =>
    rw [pixelList, List.range_succ, List.flatMap_append, List.length_append]
    have h1 : ((List.range h).flatMap (fun y => (List.range w).map fun x => (x, y))).length
        = h * w := ih
    rw [h1]
    simp [Nat.succ_mul]

lemma countLE_zeroFrame (h w i : Nat) : countLE h w (fun _ _ => 0) i = h * w := by
  rw [countLE]
  have : (pixelList h w).filter (fun p => decide ((fun _ _ => (0 : Nat)) p.2 p.1 ≤ i))
      = pixelList h w := by
    apply List.filter_eq_self.2
    intro a _
    simp
  rw [this, length_pixelList]

lemma otsuThresh_zeroFrame (h w : Nat) : otsuThresh h w (fun _ _ => 0) = 0 := by
  rw [otsuThresh]
  have hstep : (List.range 256).foldl (otsuStep h w (fun _ _ => 0)) none = none := by
    apply foldl_fixed
    intro best i _
    rw [otsuStep, countLE_zeroFrame]
    simp
  rw [hstep]

lemma gaussianBlur5_zeroFrame (h w r c : Nat) : gaussianBlur5 h w (fun _ _ => 0) r c = 0 := by
  simp [gaussianBlur5, gauss5]

/-- C9 (amended): for every frame, identical white and black inputs yield
an all-false mask in adaptive mode and in every fixed-threshold
configuration with a nonnegative threshold (the clamped difference is zero
everywhere, and zero never strictly exceeds the threshold in use). -/
theorem getMask_identical_frames (camH camW : Nat) (F : ColorFrame) (useOtsu : Bool)
    (t : Int) (hcfg : useOtsu = true ∨ 0 ≤ t) (r c : Nat) :
    getMask camH camW F F useOtsu t r c = false := by
  have hdiff : diffFrame F F = fun _ _ => 0 := by
    funext r c
    simp [diffFrame, sub8]
  cases useOtsu with
  | false =>
    have ht : 0 ≤ t := by
      rcases hcfg with h | h
      · exact absurd h (by simp)
      · exact h
    simp only [getMask, hdiff, Bool.false_eq_true, if_false, decide_eq_false_iff_not]
    omega
  | true =>
    have hblur : gaussianBlur5 camH camW (fun _ _ => 0) = fun _ _ => 0 := by
      funext a b
      exact gaussianBlur5_zeroFrame camH camW a b
    simp [getMask, hdiff, hblur, otsuThresh_zeroFrame]

/-- Closed instance of the amended C9: a constant gray frame against
itself with fixed threshold 0 yields a false mask entry. -/
theorem getMask_identical_frames_witness :
    getMask 2 2 (fun _ _ => (7, 7, 7)) (fun _ _ => (7, 7, 7)) false 0 0 0 = false :=
  getMask_identical_frames 2 2 (fun _ _ => (7, 7, 7)) false 0 (Or.inr le_rfl) 0 0

/-! ### The pipeline driver (`GrayCodeCalibration::process`, source lines 16-40) -/

/-- Color frame used for an out-of-range access. -/
def defaultColorFrame : ColorFrame := fun _ _ => (0, 0, 0)

/-- The grayscale-conversion loop of `process` (source lines 18-24):
`for (int i = 2; i < frames.size(); i++)` pushes the grayscale conversion
of `frames[i]`. -/
def processedFramesOf (frames : List ColorFrame) : List Frame :=
  ((List.range frames.length).drop 2).map (fun i => cvtGray (frames.getD i defaultColorFrame))

/-- Modelled from the spec: the default arguments of `getMask` and
`getCameraProjectionPairs` used by `process` are declared in the header
`GrayCodeCalibration.h`, which is not among the sources, so they appear
here as the explicit parameters `useOtsuD`, `maskThreshD`, `minPts` and
`noiseThresh`.  Everything else follows the source of `process`: the mask
is built from `frames[0]` and `frames[1]`, the correspondence pairs from
the grayscale conversions starting at `frames[2]`.  The downstream call to
`DelaunayBasedCorrection::findMaps` is the out-of-scope external
collaborator and is not part of the result. -/
def processPairs (frames : List ColorFrame) (projW projH camH camW : Nat)
    (useOtsuD : Bool) (maskThreshD : Int) (minPts : Int) (noiseThresh : Int) : PairsResult :=
  let pf := processedFramesOf frames
  let mask := getMask camH camW (frames.getD 0 defaultColorFrame)
    (frames.getD 1 defaultColorFrame) useOtsuD maskThreshD
  getCameraProjectionPairs pf projW projH mask camH camW minPts noiseThresh

lemma map_getD_range {α β : Type} (l : List α) (g : α → β) (d : α) :
    (List.range l.length).map (fun i => g (l.getD i d)) = l.map g := by
  induction l with
  | nil => rfl
  | cons a l ih =>
    rw [List.length_cons, List.range_succ_eq_map, List.map_cons, List.map_map, List.map_cons]
    have htail : (List.range l.length).map ((fun i => g ((a :: l).getD i d)) ∘ (fun i => i + 1))
        = (List.range l.length).map (fun i => g (l.getD i d)) := rfl
    rw [htail, ih]
    rfl

lemma processedFrames_cons (f0 f1 : ColorFrame) (rest : List ColorFrame) :
    processedFramesOf (f0 :: f1 :: rest) = rest.map cvtGray := by
  have h2 : (List.range (f0 :: f1 :: rest).length).drop 2
      = (List.range rest.length).map (fun i => i + 2) := by
    rw [show (f0 :: f1 :: rest).length = rest.length + 1 + 1 from rfl,
      List.range_succ_eq_map, List.range_succ_eq_map, List.map_cons,
      List.drop_succ_cons, List.drop_succ_cons, List.drop_zero, List.map_map]
    rfl
  rw [processedFramesOf, h2, List.map_map]
  show (List.range rest.length).map (fun i => cvtGray (rest.getD i defaultColorFrame))
      = rest.map cvtGray
  exact map_getD_range rest cvtGray defaultColorFrame

/-- C10: `process` uses `frames[0]` (white) and `frames[1]` (black) only to
build the mask, and decodes bit-plane data solely from the grayscale
conversions of `frames[2]` onward — the correspondence extraction factors
exactly through `getMask frames[0] frames[1]` and the grayscale tail, and
replacing the first two frames by any pair producing the same mask leaves
the whole result (every coordinate bit and error level) unchanged. -/
theorem process_frame_roles (f0 f1 f0a f1a : ColorFrame) (rest : List ColorFrame)
    (projW projH camH camW : Nat) (uo : Bool) (mt m t : Int)
    (hmask : getMask camH camW f0a f1a uo mt = getMask camH camW f0 f1 uo mt) :
    processedFramesOf (f0 :: f1 :: rest) = rest.map cvtGray ∧
    processPairs (f0 :: f1 :: rest) projW projH camH camW uo mt m t
      = getCameraProjectionPairs (rest.map cvtGray) projW projH
          (getMask camH camW f0 f1 uo mt) camH camW m t ∧
    processPairs (f0a :: f1a :: rest) projW projH camH camW uo mt m t
      = processPairs (f0 :: f1 :: rest) projW projH camH camW uo mt m t := by
  refine ⟨processedFrames_cons f0 f1 rest, ?_, ?_⟩
  · rw [processPairs, processedFrames_cons]
    rfl
  · rw [processPairs, processPairs, processedFrames_cons, processedFrames_cons]
    have h0 : (f0a :: f1a :: rest).getD 0 defaultColorFrame = f0a := rfl
    have h1 : (f0a :: f1a :: rest).getD 1 defaultColorFrame = f1a := rfl
    have h0b : (f0 :: f1 :: rest).getD 0 defaultColorFrame = f0 := rfl
    have h1b : (f0 :: f1 :: rest).getD 1 defaultColorFrame = f1 := rfl
    rw [h0, h1, h0b, h1b, hmask]

/-- Closed instance of C10 with a constant three-frame sequence (the mask
equality hypothesis discharged by reflexivity). -/
theorem process_frame_roles_witness :
    processedFramesOf
        [fun _ _ => (1, 2, 3), fun _ _ => (1, 2, 3), fun _ _ => (4, 5, 6)]
      = [fun _ _ => (4, 5, 6)].map cvtGray ∧
    processPairs
        [fun _ _ => (1, 2, 3), fun _ _ => (1, 2, 3), fun _ _ => (4, 5, 6)]
        1 1 1 1 false 0 1 1
      = getCameraProjectionPairs ([fun _ _ => (4, 5, 6)].map cvtGray) 1 1
          (getMask 1 1 (fun _ _ => (1, 2, 3)) (fun _ _ => (1, 2, 3)) false 0) 1 1 1 1 ∧
    processPairs
        [fun _ _ => (1, 2, 3), fun _ _ => (1, 2, 3), fun _ _ => (4, 5, 6)]
        1 1 1 1 false 0 1 1
      = processPairs
          [fun _ _ => (1, 2, 3), fun _ _ => (1, 2, 3), fun _ _ => (4, 5, 6)]
          1 1 1 1 false 0 1 1 :=
  process_frame_roles (fun _ _ => (1, 2, 3)) (fun _ _ => (1, 2, 3))
    (fun _ _ => (1, 2, 3)) (fun _ _ => (1, 2, 3)) [fun _ _ => (4, 5, 6)]
    1 1 1 1 false 0 1 1 rfl

end GrayCodeCalibration
